import Mathlib

/-!
# Verification of the session aggregation pipeline (`src/routers/sessions.py`)

Shallow embedding of the two route handlers `get_sessions_stats` and
`get_sessions_general`.  Each pandas step of the source is translated into an
executable Lean definition over lists:

* a dataframe row of the SQL result (`Site`, `state`, `type_erreur`, `moment`)
  becomes a `Row`; the `state` column is modelled *after* the
  `pd.to_numeric(..., errors="coerce")` step, so a missing or non-numeric
  state is `none` and a parsed numeric state is `some n`;
* `pd.Series.isin` on a possibly-null column becomes `isinOpt` (a null value
  is never a member of a non-empty filter list);
* `df.groupby("Site")` (pandas sorts group keys ascending) becomes grouping
  over `siteKeys`, the lexicographically sorted deduplicated site list;
  string comparison is by code points, as in Python;
* `sort_values(..., ascending=False)` is used by the source with pandas'
  default `kind='quicksort'`, which documents only the descending order, not
  the relative order of tied entries; the executable model realises it as an
  insertion sort by the descending key (one conforming implementation), and
  the documented contract itself is captured by `IsSortValuesDesc`, so no
  confirmed theorem relies on the model's tie order;
* `pivot` column order is the sorted order of the distinct `moment` values,
  which is what `DataFrame.pivot` (categorical factorization of the column
  level) produces;
* Python `round(x, 1)` becomes `round1` over `ℚ` (`round(x, 2)` becomes
  `round2`).  Python rounds half-to-even while `round` here rounds half-up;
  no theorem below depends on an exact half-way case.

`MOMENT_ORDER` is imported by the source from `routers/filters.py`, which is
not part of the sources; every definition and theorem is therefore
parametrised by the vocabulary `mo : List String`, so all results hold for
every possible value of that constant.
-/

namespace Sessions

/-- One row of the SQL result set
`SELECT Site, `State of charge(0:good, 1:error)` as state, type_erreur, moment`.
`state` is the value after `pd.to_numeric(..., errors="coerce")`: `none` when
the raw value is missing or non-numeric. `Site` is non-null (grouping key). -/
structure Row where
  site : String
  state : Option Int
  type_erreur : Option String
  moment : Option String
deriving DecidableEq, Repr

/-! ## Classification (`get_sessions_stats`, lines 80-96) -/

/-- Line 80: `df["is_ok"] = pd.to_numeric(df["state"], errors="coerce").fillna(0).astype(int).eq(0)`. -/
def is_ok (r : Row) : Bool := r.state.getD 0 == 0

/-- Model of `Series.isin(values)` on an optional-valued column: a null value is not a
member of any list of strings. -/
def isinOpt (v : Option String) (l : List String) : Bool :=
  match v with
  | some s => l.contains s
  | none => false

/-- Lines 85-88: `mask_type = df["type_erreur"].isin(error_type_list)` when
`error_type_list` is non-empty (the selected column is always present),
otherwise `True`. -/
def mask_type (etl : List String) (r : Row) : Bool :=
  if etl.isEmpty then true else isinOpt r.type_erreur etl

/-- Lines 90-93: `mask_moment = df["moment"].isin(moment_list)` when
`moment_list` is non-empty, otherwise `True`. -/
def mask_moment (ml : List String) (r : Row) : Bool :=
  if ml.isEmpty then true else isinOpt r.moment ml

/-- Line 95: `mask_nok_keep = mask_nok & mask_type & mask_moment`
with `mask_nok = ~df["is_ok"]` (line 83). -/
def mask_nok_keep (etl ml : List String) (r : Row) : Bool :=
  (!is_ok r) && mask_type etl r && mask_moment ml r

/-- Line 96: `df["is_ok_filt"] = np.where(mask_nok_keep, False, True)`. -/
def is_ok_filt (etl ml : List String) (r : Row) : Bool :=
  if mask_nok_keep etl ml r then false else true

/-! ## Global aggregates (`get_sessions_stats`, lines 98-102) -/

/-- Line 98: `total = len(df)`. -/
def total (rows : List Row) : Nat := rows.length

/-- Line 99: `ok = int(df["is_ok_filt"].sum())`. -/
def okCount (etl ml : List String) (rows : List Row) : Nat :=
  rows.countP (is_ok_filt etl ml)

/-- Line 100: `nok = total - ok`. -/
def nokCount (etl ml : List String) (rows : List Row) : Nat :=
  total rows - okCount etl ml rows

/-- Python `round(q, 1)` over the rationals. -/
def round1 (q : ℚ) : ℚ := (round (q * 10) : ℤ) / 10

/-- Python `round(q, 2)` over the rationals. -/
def round2 (q : ℚ) : ℚ := (round (q * 100) : ℤ) / 100

/-- Line 101: `taux_reussite = round(ok / total * 100, 1) if total else 0`. -/
def taux_reussite (etl ml : List String) (rows : List Row) : ℚ :=
  if total rows ≠ 0 then
    round1 ((okCount etl ml rows : ℚ) / (total rows : ℚ) * 100)
  else 0

/-- Line 102: `taux_echec = round(nok / total * 100, 1) if total else 0`. -/
def taux_echec (etl ml : List String) (rows : List Row) : ℚ :=
  if total rows ≠ 0 then
    round1 ((nokCount etl ml rows : ℚ) / (total rows : ℚ) * 100)
  else 0

/-! ## String order (Python `str` comparison, used by pandas sorting) -/

/-- Lexicographic comparison of code-point lists, Python string `<=`. -/
def strLeAux : List Char → List Char → Bool
  | [], _ => true
  | _ :: _, [] => false
  | a :: as, b :: bs =>
    if a.toNat < b.toNat then true
    else if b.toNat < a.toNat then false
    else strLeAux as bs

/-- Python string `<=` (code-point lexicographic). -/
def strLe (s t : String) : Bool := strLeAux s.data t.data

/-- The relation form of `strLe`, for sorting. -/
def strLeRel (s t : String) : Prop := strLe s t = true

instance : DecidableRel strLeRel := fun s t => instDecidableEqBool (strLe s t) true

theorem strLeAux_total (as : List Char) :
    ∀ bs, strLeAux as bs = true ∨ strLeAux bs as = true := by
  induction as with
  | nil => intro bs; exact Or.inl rfl
  | cons a as ih =>
    intro bs
    cases bs with
    | nil => exact Or.inr rfl
    | cons b bs =>
      by_cases h1 : a.toNat < b.toNat
      · left; simp [strLeAux, h1]
      · by_cases h2 : b.toNat < a.toNat
        · right; simp [strLeAux, h2]
        · rcases ih bs with h | h
          · left; simp [strLeAux, h1, h2, h]
          · right; simp [strLeAux, h1, h2, h]

theorem strLeAux_trans (as : List Char) :
    ∀ bs cs, strLeAux as bs = true → strLeAux bs cs = true → strLeAux as cs = true := by
  induction as with
  | nil => intro bs cs _ _; rfl
  | cons a as ih =>
    intro bs cs hab hbc
    cases bs with
    | nil => simp [strLeAux] at hab
    | cons b bs =>
      cases cs with
      | nil => simp [strLeAux] at hbc
      | cons c cs =>
        have hab' : a.toNat < b.toNat ∨ (a.toNat = b.toNat ∧ strLeAux as bs = true) := by
          by_cases g1 : a.toNat < b.toNat
          · exact Or.inl g1
          · by_cases g2 : b.toNat < a.toNat
            · simp [strLeAux, g1, g2] at hab
            · exact Or.inr ⟨by omega, by simpa [strLeAux, g1, g2] using hab⟩
        have hbc' : b.toNat < c.toNat ∨ (b.toNat = c.toNat ∧ strLeAux bs cs = true) := by
          by_cases k1 : b.toNat < c.toNat
          · exact Or.inl k1
          · by_cases k2 : c.toNat < b.toNat
            · simp [strLeAux, k1, k2] at hbc
            · exact Or.inr ⟨by omega, by simpa [strLeAux, k1, k2] using hbc⟩
        rcases hab' with h | ⟨he, hab2⟩ <;> rcases hbc' with h' | ⟨he', hbc2⟩
        · simp [strLeAux, show a.toNat < c.toNat by omega]
        · simp [strLeAux, show a.toNat < c.toNat by omega]
        · simp [strLeAux, show a.toNat < c.toNat by omega]
        · simp [strLeAux, show ¬a.toNat < c.toNat by omega,
            show ¬c.toNat < a.toNat by omega, ih bs cs hab2 hbc2]

instance : IsTotal String strLeRel := ⟨fun s t => strLeAux_total s.data t.data⟩

instance : IsTrans String strLeRel :=
  ⟨fun s t u hst htu => strLeAux_trans s.data t.data u.data hst htu⟩

/-! ## Per-site aggregation (`get_sessions_stats`, lines 105-118)

`df.groupby("Site")` groups by the site key; pandas emits the groups sorted
ascending by key. -/

/-- The distinct sites, in the order `groupby("Site")` emits them
(sorted ascending). -/
def siteKeys (rows : List Row) : List String :=
  List.insertionSort strLeRel (rows.map Row.site).dedup

/-- The rows of one `groupby("Site")` group. -/
def siteRows (rows : List Row) (s : String) : List Row :=
  rows.filter (fun r => r.site == s)

/-- One row of the `stats_site` dataframe: per-site
`total`, `ok`, `nok = total - ok`,
`taux_ok = np.where(total > 0, round(ok / total * 100, 1), 0)` (lines 105-118). -/
structure SiteStat where
  site : String
  total : Nat
  ok : Nat
  nok : Nat
  taux_ok : ℚ
deriving DecidableEq, Repr

/-- The `stats_site` row of one site. -/
def siteStat (etl ml : List String) (rows : List Row) (s : String) : SiteStat :=
  let g := siteRows rows s
  let o := g.countP (is_ok_filt etl ml)
  { site := s
    total := g.length
    ok := o
    nok := g.length - o
    taux_ok := if 0 < g.length then round1 ((o : ℚ) / (g.length : ℚ) * 100) else 0 }

/-- Lines 105-118: the `stats_site` dataframe. -/
def stats_site (etl ml : List String) (rows : List Row) : List SiteStat :=
  (siteKeys rows).map (siteStat etl ml rows)

/-! ## Top-10 views (`get_sessions_stats`, lines 120-124) -/

/-- Descending order on `total`, the key of `sort_values("total", ascending=False)`. -/
def totalDesc (a b : SiteStat) : Prop := b.total ≤ a.total

instance : DecidableRel totalDesc := fun a b => Nat.decLe b.total a.total

instance : IsTotal SiteStat totalDesc := ⟨fun a b => Nat.le_total b.total a.total⟩

instance : IsTrans SiteStat totalDesc := ⟨fun _ _ _ h1 h2 => Nat.le_trans h2 h1⟩

/-- Descending order on `nok`, the key of `sort_values("nok", ascending=False)`. -/
def nokDesc (a b : SiteStat) : Prop := b.nok ≤ a.nok

instance : DecidableRel nokDesc := fun a b => Nat.decLe b.nok a.nok

instance : IsTotal SiteStat nokDesc := ⟨fun a b => Nat.le_total b.nok a.nok⟩

instance : IsTrans SiteStat nokDesc := ⟨fun _ _ _ h1 h2 => Nat.le_trans h2 h1⟩

/-- Line 121: `stats_site.sort_values("total", ascending=False)`.  The
executable model uses an insertion sort by the descending key — one
implementation of the contract `IsSortValuesDesc` that the source's call
(default, unstable sort kind) guarantees; the model's stable tie order is
not guaranteed by the program and no theorem asserts it of the program. -/
def sorted_by_total (etl ml : List String) (rows : List Row) : List SiteStat :=
  List.insertionSort totalDesc (stats_site etl ml rows)

/-- Line 121: `top_sites = stats_site.sort_values("total", ascending=False).head(10)`. -/
def top_sites (etl ml : List String) (rows : List Row) : List SiteStat :=
  (sorted_by_total etl ml rows).take 10

/-- Line 124: `stats_site.sort_values("nok", ascending=False)`; the same
modelling remark as for `sorted_by_total` applies. -/
def sorted_by_nok (etl ml : List String) (rows : List Row) : List SiteStat :=
  List.insertionSort nokDesc (stats_site etl ml rows)

/-- Line 124: `top_echecs = stats_site.sort_values("nok", ascending=False).head(10)`. -/
def top_echecs (etl ml : List String) (rows : List Row) : List SiteStat :=
  (sorted_by_nok etl ml rows).take 10

/-- The contract pandas documents for `sort_values(key, ascending=False)`
with the default `kind='quicksort'`: the output is a permutation of the
input, sorted descending by the key.  The relative order of tied entries is
implementation-defined — only `kind='mergesort'` or `'stable'` guarantee
stability, and the source requests neither. -/
def IsSortValuesDesc (key : SiteStat → Nat) (input sorted : List SiteStat) : Prop :=
  sorted.Perm input ∧ List.Sorted (fun a b => key b ≤ key a) sorted

/-- The template context returned by `get_sessions_stats`
(lines 66-78 for the empty case, lines 126-138 otherwise). -/
structure StatsView where
  total : Nat
  ok : Nat
  nok : Nat
  taux_reussite : ℚ
  taux_echec : ℚ
  top_sites : List SiteStat
  top_echecs : List SiteStat
deriving DecidableEq, Repr

/-- The `get_sessions_stats` handler, after the dataframe has been fetched. -/
def get_sessions_stats (etl ml : List String) (rows : List Row) : StatsView :=
  if rows.isEmpty then
    { total := 0, ok := 0, nok := 0, taux_reussite := 0, taux_echec := 0
      top_sites := [], top_echecs := [] }
  else
    { total := total rows
      ok := okCount etl ml rows
      nok := nokCount etl ml rows
      taux_reussite := taux_reussite etl ml rows
      taux_echec := taux_echec etl ml rows
      top_sites := top_sites etl ml rows
      top_echecs := top_echecs etl ml rows }

/-! ## `get_sessions_general` (lines 141-321)

The handler re-implements the classification and aggregation pipeline with
its own code (lines 201-229); those duplicated lines are embedded as the
`G`-suffixed definitions below, so that the equivalence of the two handlers
is a statement about two distinct definitions. -/

/-- Line 201 (same expression as line 80). -/
def is_okG (r : Row) : Bool := r.state.getD 0 == 0

/-- Line 204: `mask_type = df["type_erreur"].isin(error_type_list) if error_type_list
and "type_erreur" in df.columns else pd.Series(True, index=df.index)`. -/
def mask_typeG (etl : List String) (r : Row) : Bool :=
  if etl.isEmpty then true else isinOpt r.type_erreur etl

/-- Line 205: the analogous mask for `moment`. -/
def mask_momentG (ml : List String) (r : Row) : Bool :=
  if ml.isEmpty then true else isinOpt r.moment ml

/-- Line 206: `mask_nok_keep = mask_nok & mask_type & mask_moment`. -/
def mask_nok_keepG (etl ml : List String) (r : Row) : Bool :=
  (!is_okG r) && mask_typeG etl r && mask_momentG ml r

/-- Line 208: `df["is_ok_filt"] = np.where(mask_nok_keep, False, True)`. -/
def is_ok_filtG (etl ml : List String) (r : Row) : Bool :=
  if mask_nok_keepG etl ml r then false else true

/-- Line 210: `total = len(df)`. -/
def totalG (rows : List Row) : Nat := rows.length

/-- Line 211: `ok = int(df["is_ok_filt"].sum())`. -/
def okCountG (etl ml : List String) (rows : List Row) : Nat :=
  rows.countP (is_ok_filtG etl ml)

/-- Line 212: `nok = total - ok`. -/
def nokCountG (etl ml : List String) (rows : List Row) : Nat :=
  totalG rows - okCountG etl ml rows

/-- Line 213. -/
def taux_reussiteG (etl ml : List String) (rows : List Row) : ℚ :=
  if totalG rows ≠ 0 then
    round1 ((okCountG etl ml rows : ℚ) / (totalG rows : ℚ) * 100)
  else 0

/-- Line 214. -/
def taux_echecG (etl ml : List String) (rows : List Row) : ℚ :=
  if totalG rows ≠ 0 then
    round1 ((nokCountG etl ml rows : ℚ) / (totalG rows : ℚ) * 100)
  else 0

/-- Line 217: `df.groupby("Site")` group keys, sorted ascending. -/
def siteKeysG (rows : List Row) : List String :=
  List.insertionSort strLeRel (rows.map Row.site).dedup

/-- Lines 216-229: one row of the general handler's `stats_site` dataframe. -/
def siteStatG (etl ml : List String) (rows : List Row) (s : String) : SiteStat :=
  let g := rows.filter (fun r => r.site == s)
  let o := g.countP (is_ok_filtG etl ml)
  { site := s
    total := g.length
    ok := o
    nok := g.length - o
    taux_ok := if 0 < g.length then round1 ((o : ℚ) / (g.length : ℚ) * 100) else 0 }

/-- Lines 216-229: the general handler's `stats_site` dataframe. -/
def stats_siteG (etl ml : List String) (rows : List Row) : List SiteStat :=
  (siteKeysG rows).map (siteStatG etl ml rows)

/-- Line 244: `err = df[~df["is_ok_filt"]].copy()`, the kept failures. -/
def err (etl ml : List String) (rows : List Row) : List Row :=
  rows.filter (fun r => !is_ok_filtG etl ml r)

/-- The distinct non-null `moment` values of the kept failures, in the order
`pivot(index="Site", columns="moment", ...)` emits them as columns:
sorted ascending (`groupby(["Site", "moment"])` drops rows with a null
moment, and the pivoted column level is sorted). -/
def pivotMoments (e : List Row) : List String :=
  List.insertionSort strLeRel (e.filterMap Row.moment).dedup

/-- Line 252-260: `err_grouped.columns` after `reset_index()` — the `Site`
column followed by one column per distinct moment. -/
def err_grouped_columns (e : List Row) : List String :=
  "Site" :: pivotMoments e

/-- Lines 262-263:
`moment_cols = [m for m in MOMENT_ORDER if m in err_grouped.columns]` then
`moment_cols += [c for c in err_grouped.columns if c not in moment_cols + ["Site"]]`. -/
def moment_cols (mo : List String) (e : List Row) : List String :=
  let first := mo.filter (fun m => (err_grouped_columns e).contains m)
  first ++ (err_grouped_columns e).filter (fun c => !((first ++ ["Site"]).contains c))

/-- The pivot cell of one `(site, moment)` pair: the number of kept failures
of that site with that (non-null) moment; absent combinations are filled
with `0` (`fillna(0)`, and `fillna(0)` after the left merge on line 268). -/
def pivotCell (e : List Row) (s m : String) : Nat :=
  (e.filter (fun r => r.site == s && r.moment == some m)).length

/-- One row of the `recap` dataframe (lines 231-284): the per-site global
totals (`stat_global`, lines 231-242) merged with the per-moment pivot
counts, in the column order of `recap_columns`. -/
structure RecapRow where
  site : String
  Total : Nat
  Total_OK : Nat
  Total_NOK : Nat
  cells : List (String × Nat)
  pctOK : ℚ
  pctNOK : ℚ
deriving DecidableEq, Repr

/-- The `recap` row of one site (lines 231-242 and 265-284). -/
def recapRow (etl ml mo : List String) (rows : List Row) (s : String) : RecapRow :=
  let st := siteStatG etl ml rows s
  let e := err etl ml rows
  { site := s
    Total := st.total
    Total_OK := st.ok
    Total_NOK := st.total - st.ok
    cells := (moment_cols mo e).map (fun m => (m, pivotCell e s m))
    pctOK := if 0 < st.total then round2 ((st.ok : ℚ) / (st.total : ℚ) * 100) else 0
    pctNOK := if 0 < st.total then
        round2 (((st.total - st.ok : Nat) : ℚ) / (st.total : ℚ) * 100)
      else 0 }

/-- Descending order on `Total_NOK`, the key of
`sort_values("Total_NOK", ascending=False)` (line 269). -/
def totalNokDesc (a b : RecapRow) : Prop := b.Total_NOK ≤ a.Total_NOK

instance : DecidableRel totalNokDesc := fun a b => Nat.decLe b.Total_NOK a.Total_NOK

instance : IsTotal RecapRow totalNokDesc := ⟨fun a b => Nat.le_total b.Total_NOK a.Total_NOK⟩

instance : IsTrans RecapRow totalNokDesc := ⟨fun _ _ _ h1 h2 => Nat.le_trans h2 h1⟩

/-- Lines 246-247 and 251-286: `recap_rows`, empty unless kept failures
exist, otherwise one row per site sorted descending by `Total_NOK`. -/
def recap_rows (etl ml mo : List String) (rows : List Row) : List RecapRow :=
  if (err etl ml rows).isEmpty then []
  else
    List.insertionSort totalNokDesc
      ((siteKeysG rows).map (recapRow etl ml mo rows))

/-- Lines 246 and 273-278: `recap_columns`. -/
def recap_columns (etl ml mo : List String) (rows : List Row) : List String :=
  if (err etl ml rows).isEmpty then []
  else
    ["Site", "Total", "Total_OK", "Total_NOK"]
      ++ moment_cols mo (err etl ml rows) ++ ["% OK", "% NOK"]

/-- The number of kept failures with the given (non-null) moment:
one entry of `err.groupby("moment").size()` (line 288-293). -/
def momentCount (e : List Row) (m : String) : Nat :=
  e.countP (fun r => r.moment == some m)

/-- One entry of `moment_distribution` (lines 298-305). -/
structure MomentEntry where
  moment : String
  count : Nat
  percent : ℚ
deriving DecidableEq, Repr

/-- Lines 248 and 288-305: `moment_distribution`. The per-moment counts are
reindexed to `MOMENT_ORDER` (`mo`) with `fill_value=0` — which both fixes
the order and drops any moment outside the vocabulary — then zero-count
entries are removed; `percent` divides by `total_err = len(err)`. -/
def moment_distribution (etl ml mo : List String) (rows : List Row) : List MomentEntry :=
  let e := err etl ml rows
  if e.isEmpty then []
  else
    (mo.filter (fun m => 0 < momentCount e m)).map (fun m =>
      { moment := m
        count := momentCount e m
        percent := if e.length ≠ 0 then
            round1 ((momentCount e m : ℚ) / (e.length : ℚ) * 100)
          else 0 })

/-- Lines 249 and 296-297: `moment_total_errors = int(len(err))`, `0` when
there is no kept failure. -/
def moment_total_errors (etl ml : List String) (rows : List Row) : Nat :=
  if (err etl ml rows).isEmpty then 0 else (err etl ml rows).length

/-- The template context returned by `get_sessions_general`
(lines 184-199 for the empty case, lines 307-321 otherwise). -/
structure GeneralView where
  total : Nat
  ok : Nat
  nok : Nat
  taux_reussite : ℚ
  taux_echec : ℚ
  recap_columns : List String
  recap_rows : List RecapRow
  moment_distribution : List MomentEntry
  moment_total_errors : Nat
deriving DecidableEq, Repr

/-- The `get_sessions_general` handler, after the dataframe has been fetched. -/
def get_sessions_general (etl ml mo : List String) (rows : List Row) : GeneralView :=
  if rows.isEmpty then
    { total := 0, ok := 0, nok := 0, taux_reussite := 0, taux_echec := 0
      recap_columns := [], recap_rows := [], moment_distribution := []
      moment_total_errors := 0 }
  else
    { total := totalG rows
      ok := okCountG etl ml rows
      nok := nokCountG etl ml rows
      taux_reussite := taux_reussiteG etl ml rows
      taux_echec := taux_echecG etl ml rows
      recap_columns := recap_columns etl ml mo rows
      recap_rows := recap_rows etl ml mo rows
      moment_distribution := moment_distribution etl ml mo rows
      moment_total_errors := moment_total_errors etl ml rows }

/-! ## Counting helper lemmas -/

/-- Counting a disjunction of two predicates that never hold together splits
into the sum of the two counts. -/
theorem countP_or_disjoint {α : Type} (p q : α → Bool) :
    ∀ l : List α, (∀ a ∈ l, ¬(p a = true ∧ q a = true)) →
      l.countP (fun a => p a || q a) = l.countP p + l.countP q := by
  intro l
  induction l with
  | nil => intro _; simp
  | cons a t ih =>
    intro h
    have ht : ∀ x ∈ t, ¬(p x = true ∧ q x = true) := fun x hx => h x (List.mem_cons_of_mem a hx)
    have ha := h a (List.mem_cons_self a t)
    simp only [List.countP_cons, ih ht]
    cases hp : p a <;> cases hq : q a <;> simp [hp, hq] at ha ⊢ <;> omega

/-- Grouping master lemma: summing, over a duplicate-free list of keys, the
number of elements whose (optional) key equals that key, counts exactly the
elements whose key occurs in the key list. -/
theorem sum_countP_keys {α κ : Type} [BEq κ] [LawfulBEq κ] (key : α → Option κ) :
    ∀ (keys : List κ), keys.Nodup → ∀ l : List α,
      ((keys.map fun k => l.countP fun a => key a == some k).sum
        = l.countP fun a => keys.any fun k => key a == some k) := by
  intro keys
  induction keys with
  | nil => intro _ l; simp
  | cons k ks ih =>
    intro hnd l
    have hk : k ∉ ks := (List.nodup_cons.mp hnd).1
    have hks : ks.Nodup := (List.nodup_cons.mp hnd).2
    have hdisj : ∀ a ∈ l,
        ¬((key a == some k) = true ∧ (ks.any fun k' => key a == some k') = true) := by
      intro a _ ⟨h1, h2⟩
      have e1 : key a = some k := eq_of_beq h1
      rcases List.any_eq_true.mp h2 with ⟨k', hk', h3⟩
      have e2 : key a = some k' := eq_of_beq h3
      rw [e1] at e2
      have : k = k' := by injection e2
      exact hk (this ▸ hk')
    calc ((k :: ks).map fun k => l.countP fun a => key a == some k).sum
        = (l.countP fun a => key a == some k)
            + ((ks.map fun k => l.countP fun a => key a == some k).sum) := by
          simp
      _ = (l.countP fun a => key a == some k)
            + (l.countP fun a => ks.any fun k' => key a == some k') := by
          rw [ih hks l]
      _ = l.countP fun a => (key a == some k) || (ks.any fun k' => key a == some k') := by
          rw [countP_or_disjoint _ _ l hdisj]
      _ = l.countP fun a => (k :: ks).any fun k' => key a == some k' := by
          simp [List.any_cons]

/-- Sums over `Nat`-valued maps distribute over pointwise addition. -/
theorem sum_map_add_nat {α : Type} (f g : α → Nat) :
    ∀ l : List α, (l.map fun x => f x + g x).sum = (l.map f).sum + (l.map g).sum := by
  intro l
  induction l with
  | nil => simp
  | cons a t ih => simp [ih]; omega

/-- Dropping the zero-count entries of a `Nat`-valued map does not change
its sum. -/
theorem sum_map_filter_pos {α : Type} (f : α → Nat) :
    ∀ l : List α, ((l.filter fun x => 0 < f x).map f).sum = (l.map f).sum := by
  intro l
  induction l with
  | nil => simp
  | cons a t ih =>
    by_cases h : 0 < f a
    · simp [List.filter_cons, h, ih]
    · simp [List.filter_cons, h, ih]
      omega

/-- A count by `countP` only depends on the pointwise values of the predicate on the list. -/
theorem countP_congr_mem {α : Type} (p q : α → Bool) :
    ∀ l : List α, (∀ a ∈ l, p a = q a) → l.countP p = l.countP q := by
  intro l
  induction l with
  | nil => intro _; rfl
  | cons a t ih =>
    intro h
    simp only [List.countP_cons, h a (List.mem_cons_self a t),
      ih fun x hx => h x (List.mem_cons_of_mem a hx)]

/-- Characterisation of the error-type mask: it holds iff the filter list is
empty or the record's `type_erreur` is a present value belonging to it. -/
theorem mask_type_eq_true_iff (etl : List String) (r : Row) :
    mask_type etl r = true ↔ (etl = [] ∨ ∃ s, r.type_erreur = some s ∧ s ∈ etl) := by
  cases hv : r.type_erreur with
  | none => cases etl <;> simp [mask_type, isinOpt, hv]
  | some s => cases etl <;> simp [mask_type, isinOpt, hv]

/-- Characterisation of the moment mask. -/
theorem mask_moment_eq_true_iff (ml : List String) (r : Row) :
    mask_moment ml r = true ↔ (ml = [] ∨ ∃ m, r.moment = some m ∧ m ∈ ml) := by
  cases hv : r.moment with
  | none => cases ml <;> simp [mask_moment, isinOpt, hv]
  | some m => cases ml <;> simp [mask_moment, isinOpt, hv]

/-- C1: for every record, `is_ok_raw = (state_code == 0)`; a raw success is
never reclassified; a raw failure is counted as a failure
(`is_ok_effective = false`) iff its `error_type` matches the `error_types`
filter and its `moment` matches the `moments` filter, where an empty filter
list matches everything and a missing value matches no non-empty filter
list; otherwise the failure is reclassified as OK. -/
theorem C1_classification (etl ml : List String) (r : Row) :
    (is_ok r = true ↔ r.state.getD 0 = 0) ∧
    (is_ok r = true → is_ok_filt etl ml r = true) ∧
    (is_ok r = false →
      (is_ok_filt etl ml r = false ↔
        ((etl = [] ∨ ∃ s, r.type_erreur = some s ∧ s ∈ etl) ∧
         (ml = [] ∨ ∃ m, r.moment = some m ∧ m ∈ ml)))) ∧
    (r.type_erreur = none → etl ≠ [] → mask_type etl r = false) ∧
    (r.moment = none → ml ≠ [] → mask_moment ml r = false) := by
  refine ⟨by simp [is_ok], ?_, ?_, ?_, ?_⟩
  · intro h
    simp [is_ok_filt, mask_nok_keep, h]
  · intro h
    have hred : is_ok_filt etl ml r = false ↔
        (mask_type etl r = true ∧ mask_moment ml r = true) := by
      simp [is_ok_filt, mask_nok_keep, h]
    rw [hred, mask_type_eq_true_iff, mask_moment_eq_true_iff]
  · intro hv hne
    simp [mask_type, isinOpt, hv, List.isEmpty_iff, hne]
  · intro hv hne
    simp [mask_moment, isinOpt, hv, List.isEmpty_iff, hne]

/-- Concrete instance of `C1_classification`: a failing record matching both
non-empty filters is counted as a failure. -/
theorem C1_classification_witness :
    is_ok_filt ["E1"] ["Matin"] ⟨"A", some 1, some "E1", some "Matin"⟩ = false :=
  ((C1_classification ["E1"] ["Matin"] ⟨"A", some 1, some "E1", some "Matin"⟩).2.2.1
      (by decide)).mpr
    ⟨Or.inr ⟨"E1", rfl, by decide⟩, Or.inr ⟨"Matin", rfl, by decide⟩⟩

/-- C3: a record whose `state_code` is missing or non-numeric (the coerced
value is `none`) is treated as state `0`, classified as a raw success, and —
whatever the filters are — never counted as a failure. The embedding is
total, so no error is ever raised. -/
theorem C3_malformed_state (etl ml : List String) (r : Row) (h : r.state = none) :
    r.state.getD 0 = 0 ∧ is_ok r = true ∧ is_ok_filt etl ml r = true := by
  refine ⟨by simp [h], by simp [is_ok, h], ?_⟩
  simp [is_ok_filt, mask_nok_keep, is_ok, h]

/-- Concrete instance of `C3_malformed_state`: a missing state with filters
that would match its error type and moment is still counted as OK. -/
theorem C3_malformed_state_witness :
    ((⟨"A", none, some "E1", some "Matin"⟩ : Row).state = none) ∧
    ((⟨"A", none, some "E1", some "Matin"⟩ : Row).state.getD 0 = 0 ∧
      is_ok ⟨"A", none, some "E1", some "Matin"⟩ = true ∧
      is_ok_filt ["E1"] ["Matin"] ⟨"A", none, some "E1", some "Matin"⟩ = true) :=
  ⟨rfl, C3_malformed_state ["E1"] ["Matin"] ⟨"A", none, some "E1", some "Matin"⟩ rfl⟩

/-- C4: on the empty batch both handlers return all-zero aggregates, zero
rates (no NaN and no exception — the embedding is total and every division
is guarded), and empty table outputs; and for every input the rate guards
return `0` whenever the total is `0`. -/
theorem C4_empty_input (etl ml mo : List String) :
    get_sessions_stats etl ml [] =
      { total := 0, ok := 0, nok := 0, taux_reussite := 0, taux_echec := 0
        top_sites := [], top_echecs := [] } ∧
    get_sessions_general etl ml mo [] =
      { total := 0, ok := 0, nok := 0, taux_reussite := 0, taux_echec := 0
        recap_columns := [], recap_rows := [], moment_distribution := []
        moment_total_errors := 0 } ∧
    stats_site etl ml [] = [] ∧
    stats_siteG etl ml [] = [] ∧
    (∀ rows : List Row, total rows = 0 →
      taux_reussite etl ml rows = 0 ∧ taux_echec etl ml rows = 0 ∧
      taux_reussiteG etl ml rows = 0 ∧ taux_echecG etl ml rows = 0) := by
  refine ⟨rfl, rfl, rfl, rfl, ?_⟩
  intro rows h
  refine ⟨?_, ?_, ?_, ?_⟩ <;> simp [taux_reussite, taux_echec, taux_reussiteG, taux_echecG,
    totalG, total, show rows.length = 0 from h]

/-- Concrete instance of `C4_empty_input` at a non-trivial filter. -/
theorem C4_empty_input_witness :
    taux_reussite ["E1"] [] [] = 0 ∧ taux_echec ["E1"] [] [] = 0 ∧
    taux_reussiteG ["E1"] [] [] = 0 ∧ taux_echecG ["E1"] [] [] = 0 :=
  (C4_empty_input ["E1"] [] ["Matin"]).2.2.2.2 [] rfl

/-- C8: the two handlers' duplicated classify/aggregate pipelines are
behaviourally equivalent on their shared outputs: same total, ok, nok,
success and failure rates, and the same per-site `stats_site` table. -/
theorem C8_views_equivalent (etl ml mo : List String) (rows : List Row) :
    (get_sessions_stats etl ml rows).total = (get_sessions_general etl ml mo rows).total ∧
    (get_sessions_stats etl ml rows).ok = (get_sessions_general etl ml mo rows).ok ∧
    (get_sessions_stats etl ml rows).nok = (get_sessions_general etl ml mo rows).nok ∧
    (get_sessions_stats etl ml rows).taux_reussite
      = (get_sessions_general etl ml mo rows).taux_reussite ∧
    (get_sessions_stats etl ml rows).taux_echec
      = (get_sessions_general etl ml mo rows).taux_echec ∧
    stats_site etl ml rows = stats_siteG etl ml rows := by
  refine ⟨?_, ?_, ?_, ?_, ?_, rfl⟩ <;>
    by_cases h : rows.isEmpty <;>
      simp only [get_sessions_stats, get_sessions_general, h, if_true, if_false,
        Bool.false_eq_true, if_neg] <;>
      rfl

/-- The site keys are duplicate-free. -/
theorem siteKeys_nodup (rows : List Row) : (siteKeys rows).Nodup :=
  ((List.perm_insertionSort strLeRel (rows.map Row.site).dedup).nodup_iff).mpr
    (List.nodup_dedup _)

/-- Every record's site occurs among the site keys. -/
theorem site_mem_siteKeys {rows : List Row} {r : Row} (hr : r ∈ rows) :
    r.site ∈ siteKeys rows :=
  (List.mem_insertionSort strLeRel).mpr
    (List.mem_dedup.mpr (List.mem_map_of_mem Row.site hr))

/-- C2: `ok + nok = total` (both counts being naturals, they are non-negative
by construction), the per-site totals sum to the global total, and the
per-site `nok` values sum to the global `nok`; every record carries a
non-null site by the type of `Row`. -/
theorem C2_aggregate_sums (etl ml : List String) (rows : List Row) :
    okCount etl ml rows + nokCount etl ml rows = total rows ∧
    ((stats_site etl ml rows).map SiteStat.total).sum = total rows ∧
    ((stats_site etl ml rows).map SiteStat.nok).sum = nokCount etl ml rows := by
  have hok_le : okCount etl ml rows ≤ total rows := List.countP_le_length _
  have hnd := siteKeys_nodup rows
  -- the per-site totals, as counts over the whole batch
  have htot_site : ∀ s, (siteStat etl ml rows s).total
      = rows.countP fun a => (some a.site : Option String) == some s := by
    intro s
    show (siteRows rows s).length = _
    rw [siteRows, ← List.countP_eq_length_filter]
    rfl
  -- the per-site ok counts, as counts over the whole batch
  have hok_site : ∀ s, (siteStat etl ml rows s).ok
      = rows.countP fun a =>
          (if is_ok_filt etl ml a then some a.site else none) == some s := by
    intro s
    show (siteRows rows s).countP (is_ok_filt etl ml) = _
    rw [siteRows, List.countP_filter]
    refine countP_congr_mem _ _ rows fun a _ => ?_
    cases h : is_ok_filt etl ml a <;> simp [h]
  -- total over all sites
  have m1 := sum_countP_keys (fun r : Row => (some r.site : Option String))
    (siteKeys rows) hnd rows
  have cover1 : rows.countP
      (fun a => (siteKeys rows).any fun k => (some a.site : Option String) == some k)
      = rows.length := by
    refine List.countP_eq_length.mpr fun a ha => ?_
    exact List.any_eq_true.mpr ⟨a.site, site_mem_siteKeys ha, by simp⟩
  have hsum_total : ((stats_site etl ml rows).map SiteStat.total).sum = total rows := by
    calc ((stats_site etl ml rows).map SiteStat.total).sum
        = (((siteKeys rows).map fun s =>
            rows.countP fun a => (some a.site : Option String) == some s)).sum := by
          rw [stats_site, List.map_map]
          exact congrArg List.sum (List.map_congr_left fun s _ => htot_site s)
      _ = rows.countP
            (fun a => (siteKeys rows).any fun k => (some a.site : Option String) == some k) :=
          m1
      _ = rows.length := cover1
  -- ok over all sites
  have m2 := sum_countP_keys
    (fun r : Row => if is_ok_filt etl ml r then some r.site else none)
    (siteKeys rows) hnd rows
  have cover2 : rows.countP
      (fun a => (siteKeys rows).any fun k =>
        (if is_ok_filt etl ml a then some a.site else none) == some k)
      = okCount etl ml rows := by
    refine countP_congr_mem _ _ rows fun a ha => ?_
    cases h : is_ok_filt etl ml a
    · simp [h]
    · simp only [h, if_true]
      exact List.any_eq_true.mpr ⟨a.site, site_mem_siteKeys ha, by simp⟩
  have hsum_ok : ((stats_site etl ml rows).map SiteStat.ok).sum = okCount etl ml rows := by
    calc ((stats_site etl ml rows).map SiteStat.ok).sum
        = (((siteKeys rows).map fun s =>
            rows.countP fun a =>
              (if is_ok_filt etl ml a then some a.site else none) == some s)).sum := by
          rw [stats_site, List.map_map]
          exact congrArg List.sum (List.map_congr_left fun s _ => hok_site s)
      _ = _ := m2
      _ = okCount etl ml rows := cover2
  -- per-site nok + ok = total
  have hnokok : ((stats_site etl ml rows).map SiteStat.nok).sum
      + ((stats_site etl ml rows).map SiteStat.ok).sum
      = ((stats_site etl ml rows).map SiteStat.total).sum := by
    rw [← sum_map_add_nat]
    refine congrArg List.sum (List.map_congr_left fun st _ => ?_)
    show st.nok + st.ok = st.total
    rcases List.mem_map.mp ‹st ∈ stats_site etl ml rows› with ⟨s, _, rfl⟩
    show (siteRows rows s).length - (siteRows rows s).countP (is_ok_filt etl ml)
        + (siteRows rows s).countP (is_ok_filt etl ml) = (siteRows rows s).length
    have := List.countP_le_length (p := is_ok_filt etl ml) (l := siteRows rows s)
    omega
  refine ⟨by unfold nokCount; omega, hsum_total, ?_⟩
  unfold nokCount
  omega

/-- Tie-breaking input for C5: two sites with the same volume and the same
failure count. -/
def c5rows : List Row := [⟨"B", some 0, none, none⟩, ⟨"A", some 0, none, none⟩]

/-- On `c5rows` the per-site table is `[A, B]` (the grouping order) with the
two entries tied on `total`; the swapped order `[B, A]` also satisfies
everything the source's sort call guarantees. -/
theorem swapped_sort_conforming :
    IsSortValuesDesc SiteStat.total (stats_site [] [] c5rows)
      [siteStat [] [] c5rows "B", siteStat [] [] c5rows "A"] := by
  constructor
  · exact List.Perm.swap (siteStat [] [] c5rows "A") (siteStat [] [] c5rows "B") []
  · refine List.sorted_cons.mpr ⟨?_, List.sorted_singleton _⟩
    intro b hb
    rw [List.mem_singleton] at hb
    subst hb
    decide

/-- C5 counterexample: the source sorts with pandas' default unstable kind,
whose guarantee is only `IsSortValuesDesc` (a permutation sorted descending
by the key).  On two sites tied on `total`, the swapped output satisfies
that full contract while breaking the claimed preservation of the per-site
grouping order, so the claim's stability property is not a consequence of
the program's sort call. -/
theorem C5_counterexample :
    IsSortValuesDesc SiteStat.total (stats_site [] [] c5rows)
      [siteStat [] [] c5rows "B", siteStat [] [] c5rows "A"] ∧
    (siteStat [] [] c5rows "A").total = (siteStat [] [] c5rows "B").total ∧
    [siteStat [] [] c5rows "A", siteStat [] [] c5rows "B"].Sublist
      (stats_site [] [] c5rows) ∧
    ¬[siteStat [] [] c5rows "A", siteStat [] [] c5rows "B"].Sublist
      [siteStat [] [] c5rows "B", siteStat [] [] c5rows "A"] := by
  refine ⟨swapped_sort_conforming, rfl, List.Sublist.refl _, ?_⟩
  intro h
  have heq := h.eq_of_length rfl
  have hhead : siteStat [] [] c5rows "A" = siteStat [] [] c5rows "B" := by
    injection heq
  have hsite : "A" = "B" := congrArg SiteStat.site hhead
  exact absurd hsite (by decide)

/-- C5 (amended): `top_by_volume` is the first 10 entries of the per-site
table sorted descending by `total`, so it is sorted descending and has
length `min 10 (number of distinct sites)`; `top_by_failures` likewise by
`nok`.  These hold for *every* output meeting the sort call's documented
contract `IsSortValuesDesc` — hence for the program whatever tie order its
sort produces — and the executable model's sort meets that contract.  No
tie-preservation is asserted: the default sort kind is not stable. -/
theorem C5_topn_amended (etl ml : List String) (rows : List Row) :
    IsSortValuesDesc SiteStat.total (stats_site etl ml rows)
      (sorted_by_total etl ml rows) ∧
    IsSortValuesDesc SiteStat.nok (stats_site etl ml rows)
      (sorted_by_nok etl ml rows) ∧
    top_sites etl ml rows = (sorted_by_total etl ml rows).take 10 ∧
    top_echecs etl ml rows = (sorted_by_nok etl ml rows).take 10 ∧
    (∀ sorted : List SiteStat,
      IsSortValuesDesc SiteStat.total (stats_site etl ml rows) sorted →
        List.Sorted (fun a b => SiteStat.total b ≤ SiteStat.total a)
          (sorted.take 10) ∧
        (sorted.take 10).length = min 10 (siteKeys rows).length) ∧
    (∀ sorted : List SiteStat,
      IsSortValuesDesc SiteStat.nok (stats_site etl ml rows) sorted →
        List.Sorted (fun a b => SiteStat.nok b ≤ SiteStat.nok a)
          (sorted.take 10) ∧
        (sorted.take 10).length = min 10 (siteKeys rows).length) := by
  have hgen : ∀ (key : SiteStat → Nat) (l : List SiteStat),
      IsSortValuesDesc key (stats_site etl ml rows) l →
        List.Sorted (fun a b => key b ≤ key a) (l.take 10) ∧
        (l.take 10).length = min 10 (siteKeys rows).length := by
    intro key l h
    refine ⟨List.Pairwise.sublist (List.take_sublist 10 _) h.2, ?_⟩
    rw [List.length_take, h.1.length_eq, stats_site, List.length_map]
  refine ⟨⟨List.perm_insertionSort totalDesc _, ?_⟩,
    ⟨List.perm_insertionSort nokDesc _, ?_⟩, rfl, rfl,
    hgen SiteStat.total, hgen SiteStat.nok⟩
  · exact List.sorted_insertionSort totalDesc _
  · exact List.sorted_insertionSort nokDesc _

/-- Concrete instance of `C5_topn_amended`: on `c5rows` even the swapped
conforming output yields a descending top list of length
`min 10 (number of distinct sites)`. -/
theorem C5_topn_amended_witness :
    List.Sorted (fun a b => SiteStat.total b ≤ SiteStat.total a)
      (([siteStat [] [] c5rows "B", siteStat [] [] c5rows "A"]).take 10) ∧
    (([siteStat [] [] c5rows "B", siteStat [] [] c5rows "A"]).take 10).length
      = min 10 (siteKeys c5rows).length :=
  (C5_topn_amended [] [] c5rows).2.2.2.2.1
    [siteStat [] [] c5rows "B", siteStat [] [] c5rows "A"]
    swapped_sort_conforming

/-- The moment values of a record list, deduplicated keeping the order in
which each value is first encountered (what the claim — but not the code —
predicts for the order of the non-vocabulary pivot columns). -/
def firstEncounter : List String → List String
  | [] => []
  | a :: l => a :: (firstEncounter l).filter (fun b => b != a)

/-- Kept failures whose two moment values are first encountered in
anti-alphabetical order. -/
def c7rows : List Row :=
  [⟨"A", some 1, none, some "zz"⟩, ⟨"A", some 1, none, some "aa"⟩]

/-- C7 counterexample: with vocabulary `["Matin"]` and kept failures whose
non-vocabulary moments are encountered in the order `zz`, `aa`, the code
emits the pivot columns in ascending lexicographic order `aa`, `zz` — not in
first-encounter order as the claim states. -/
theorem C7_counterexample :
    moment_cols ["Matin"] (err [] [] c7rows) = ["aa", "zz"] ∧
    firstEncounter ((err [] [] c7rows).filterMap Row.moment) = ["zz", "aa"] ∧
    moment_cols ["Matin"] (err [] [] c7rows)
      ≠ ["Matin"].filter (fun m => (pivotMoments (err [] [] c7rows)).contains m)
          ++ firstEncounter ((err [] [] c7rows).filterMap Row.moment) := by
  refine ⟨by decide, by decide, by decide⟩

/-- C7 (amended): the pivot's moment columns are the vocabulary moments that
occur among the kept failures, in vocabulary order, followed by the
non-vocabulary moments in ascending lexicographic order (the sorted order of
the pivoted column level) — not in first-encounter order; the recap rows are
sorted descending by `Total_NOK`; and the pivot tables are produced exactly
when kept failures exist. The two hypotheses exclude the degenerate case of
a moment value or vocabulary entry literally equal to the reserved column
name `"Site"`. -/
theorem C7_pivot_amended (etl ml mo : List String) (rows : List Row)
    (hS1 : "Site" ∉ mo) (hS2 : "Site" ∉ pivotMoments (err etl ml rows)) :
    moment_cols mo (err etl ml rows)
      = mo.filter (fun m => (pivotMoments (err etl ml rows)).contains m)
        ++ (pivotMoments (err etl ml rows)).filter (fun c => !(mo.contains c)) ∧
    List.Sorted strLeRel (pivotMoments (err etl ml rows)) ∧
    List.Sorted strLeRel
      ((pivotMoments (err etl ml rows)).filter (fun c => !(mo.contains c))) ∧
    List.Sorted totalNokDesc (recap_rows etl ml mo rows) ∧
    (recap_rows etl ml mo rows = [] ↔ err etl ml rows = []) ∧
    (recap_columns etl ml mo rows = [] ↔ err etl ml rows = []) := by
  have hpiv : List.Sorted strLeRel (pivotMoments (err etl ml rows)) :=
    List.sorted_insertionSort strLeRel _
  have hc1 : ∀ (L : List String) (a : String), L.contains a = decide (a ∈ L) :=
    fun L a => List.elem_eq_mem a L
  refine ⟨?_, hpiv, List.Pairwise.filter _ hpiv, ?_, ?_, ?_⟩
  · -- column split
    rw [moment_cols]
    have hfirst : mo.filter (fun m => (err_grouped_columns (err etl ml rows)).contains m)
        = mo.filter (fun m => (pivotMoments (err etl ml rows)).contains m) := by
      refine List.filter_congr fun m hm => ?_
      have hmS : m ≠ "Site" := fun h => hS1 (h ▸ hm)
      simp [hc1, err_grouped_columns, List.mem_cons, hmS]
    rw [hfirst, err_grouped_columns, List.filter_cons]
    have hsite : ¬((!((mo.filter
        (fun m => (pivotMoments (err etl ml rows)).contains m)
          ++ ["Site"]).contains "Site")) = true) := by
      simp [hc1]
    rw [if_neg hsite]
    refine congrArg
      (fun l => mo.filter (fun m => (pivotMoments (err etl ml rows)).contains m) ++ l) ?_
    refine List.filter_congr fun c hc => ?_
    have hcS : c ≠ "Site" := fun h => hS2 (h ▸ hc)
    simp only [hc1, List.mem_append, List.mem_filter, List.mem_cons,
      List.not_mem_nil, or_false]
    refine congrArg Bool.not (decide_eq_decide.mpr ?_)
    constructor
    · rintro (⟨hm, _⟩ | h)
      · exact hm
      · exact absurd h hcS
    · intro hm
      exact Or.inl ⟨hm, by simp [hc1, hc]⟩
  · -- recap rows sorted
    by_cases h : (err etl ml rows).isEmpty
    · simp [recap_rows, h, List.Sorted]
    · simp only [recap_rows, h, Bool.false_eq_true, if_neg, if_false]
      exact List.sorted_insertionSort totalNokDesc _
  · -- recap_rows empty iff no kept failure
    constructor
    · intro h
      by_contra herr
      obtain ⟨r, hr⟩ := List.exists_mem_of_ne_nil _ herr
      have hrr : r ∈ rows := (List.mem_filter.mp hr).1
      have hsk : r.site ∈ siteKeysG rows :=
        (List.mem_insertionSort strLeRel).mpr
          (List.mem_dedup.mpr (List.mem_map_of_mem Row.site hrr))
      have hmem : recapRow etl ml mo rows r.site
          ∈ (siteKeysG rows).map (recapRow etl ml mo rows) :=
        List.mem_map_of_mem _ hsk
      have : recapRow etl ml mo rows r.site ∈ recap_rows etl ml mo rows := by
        rw [recap_rows, if_neg (by simpa [List.isEmpty_iff] using herr)]
        exact (List.mem_insertionSort totalNokDesc).mpr hmem
      rw [h] at this
      exact absurd this (List.not_mem_nil _)
    · intro h
      simp [recap_rows, h]
  · -- recap_columns empty iff no kept failure
    constructor
    · intro h
      by_contra herr
      rw [recap_columns, if_neg (by simpa [List.isEmpty_iff] using herr)] at h
      simp at h
    · intro h
      simp [recap_columns, h]

/-- Concrete instance of `C7_pivot_amended` on `c7rows`. -/
theorem C7_pivot_amended_witness :
    moment_cols ["Matin"] (err [] [] c7rows)
      = ["Matin"].filter (fun m => (pivotMoments (err [] [] c7rows)).contains m)
        ++ (pivotMoments (err [] [] c7rows)).filter (fun c => !(["Matin"].contains c)) :=
  (C7_pivot_amended [] [] ["Matin"] c7rows (by decide) (by decide)).1

/-! ## Rounding error bounds -/

/-- Rounding to one decimal moves a rational by at most `1/20`. -/
theorem round1_abs_le (q : ℚ) : |round1 q - q| ≤ 1 / 20 := by
  have h := abs_sub_round (q * 10)
  have heq : round1 q - q = -((q * 10 - ((round (q * 10) : ℤ) : ℚ)) / 10) := by
    rw [round1]; ring
  rw [heq, abs_neg, abs_div]
  have h10 : |(10 : ℚ)| = 10 := by norm_num
  rw [h10]
  calc |q * 10 - ((round (q * 10) : ℤ) : ℚ)| / 10 ≤ (1 / 2) / 10 := by gcongr
    _ = 1 / 20 := by norm_num

/-- Summing one-decimal roundings moves a sum by at most `1/20` per term. -/
theorem sum_map_round1_sub_le (f : String → ℚ) :
    ∀ l : List String,
      |((l.map fun m => round1 (f m)).sum) - ((l.map f).sum)|
        ≤ (1 / 20 : ℚ) * (l.length : ℚ) := by
  intro l
  induction l with
  | nil => simp
  | cons a t ih =>
    simp only [List.map_cons, List.sum_cons, List.length_cons]
    have h1 := round1_abs_le (f a)
    have htri : |(round1 (f a) + ((t.map fun m => round1 (f m)).sum))
        - (f a + (t.map f).sum)|
        ≤ |round1 (f a) - f a|
          + |((t.map fun m => round1 (f m)).sum) - (t.map f).sum| := by
      have harr : (round1 (f a) + ((t.map fun m => round1 (f m)).sum))
          - (f a + (t.map f).sum)
          = (round1 (f a) - f a)
            + (((t.map fun m => round1 (f m)).sum) - (t.map f).sum) := by ring
      rw [harr]
      exact abs_add _ _
    have hsum := le_trans htri (add_le_add h1 ih)
    push_cast
    push_cast at hsum
    linarith

/-- Multiplying a mapped sum by a constant. -/
theorem sum_map_mul_const {α : Type} (f : α → ℚ) (c : ℚ) :
    ∀ l : List α, (l.map fun x => f x * c).sum = (l.map f).sum * c := by
  intro l
  induction l with
  | nil => simp
  | cons a t ih => simp [ih]; ring

/-! ## The moment distribution -/

/-- The counts listed in `moment_distribution` sum to the number of kept
failures whose moment belongs to the vocabulary. -/
theorem moment_distribution_counts_sum (etl ml mo : List String) (rows : List Row)
    (hnd : mo.Nodup) :
    ((moment_distribution etl ml mo rows).map MomentEntry.count).sum
      = (err etl ml rows).countP (fun r => mo.any fun m => r.moment == some m) := by
  by_cases he : (err etl ml rows).isEmpty
  · have : err etl ml rows = [] := List.isEmpty_iff.mp he
    simp [moment_distribution, he, this]
  · simp only [moment_distribution, he, Bool.false_eq_true, if_false, List.map_map]
    calc ((mo.filter fun m => 0 < momentCount (err etl ml rows) m).map
            fun m => momentCount (err etl ml rows) m).sum
        = (mo.map fun m => momentCount (err etl ml rows) m).sum :=
          sum_map_filter_pos (fun m => momentCount (err etl ml rows) m) mo
      _ = _ := sum_countP_keys Row.moment mo hnd (err etl ml rows)

/-- The kept-failure input for the C6 counterexample: a single genuine
failure carrying no moment value at all. -/
def c6rows : List Row := [⟨"A", some 1, none, none⟩]

/-- C6 counterexample: with one kept failure whose moment is missing,
`total_failures = 1 > 0` but `moment_distribution` is empty, so the listed
percents sum to `0`, which is not within `0.1 × 0` of `100`. -/
theorem C6_counterexample :
    moment_total_errors [] [] c6rows = 1 ∧
    moment_distribution [] [] ["Matin"] c6rows = [] ∧
    ¬(|((moment_distribution [] [] ["Matin"] c6rows).map MomentEntry.percent).sum - 100|
        ≤ (1 / 10 : ℚ)
          * ((moment_distribution [] [] ["Matin"] c6rows).length : ℚ)) := by
  have hd : moment_distribution [] [] ["Matin"] c6rows = [] := rfl
  refine ⟨rfl, hd, ?_⟩
  rw [hd]
  norm_num

/-- C6 (amended): when at least one kept failure exists, the vocabulary has
no duplicates, and *every kept failure's moment value belongs to the
vocabulary*, each `moment_distribution` entry's percent equals
`round(count / total_failures * 100, 1)` and the listed percents sum to
`100` within `0.1` per listed bucket.  (Without the vocabulary-coverage
hypothesis the claim is false, see the counterexample.) -/
theorem C6_distribution_amended (etl ml mo : List String) (rows : List Row)
    (hnd : mo.Nodup)
    (hcov : ∀ r ∈ err etl ml rows, ∃ m ∈ mo, r.moment = some m)
    (hne : err etl ml rows ≠ []) :
    (∀ entry ∈ moment_distribution etl ml mo rows,
      entry.percent
        = round1 ((entry.count : ℚ) / ((moment_total_errors etl ml rows : ℚ)) * 100)) ∧
    |((moment_distribution etl ml mo rows).map MomentEntry.percent).sum - 100|
      ≤ (1 / 10 : ℚ) * ((moment_distribution etl ml mo rows).length : ℚ) := by
  have hie : (err etl ml rows).isEmpty = false := by
    simpa [List.isEmpty_iff] using hne
  have hT : (err etl ml rows).length ≠ 0 := by
    simpa [List.length_eq_zero] using hne
  have hTpos : (0 : ℚ) < ((err etl ml rows).length : ℚ) := by
    have : 0 < (err etl ml rows).length := Nat.pos_of_ne_zero hT
    exact_mod_cast this
  -- the distribution in explicit form
  have hform : moment_distribution etl ml mo rows
      = (mo.filter fun m => 0 < momentCount (err etl ml rows) m).map fun m =>
          { moment := m
            count := momentCount (err etl ml rows) m
            percent := round1 ((momentCount (err etl ml rows) m : ℚ)
              / ((err etl ml rows).length : ℚ) * 100) } := by
    simp only [moment_distribution, hie, Bool.false_eq_true, if_false]
    exact List.map_congr_left fun m _ => by rw [if_pos hT]
  have htotal : moment_total_errors etl ml rows = (err etl ml rows).length := by
    simp [moment_total_errors, hie]
  -- the counts listed sum to the total number of kept failures
  have hcover : (err etl ml rows).countP (fun r => mo.any fun m => r.moment == some m)
      = (err etl ml rows).length := by
    refine List.countP_eq_length.mpr fun r hr => ?_
    obtain ⟨m, hm, hrm⟩ := hcov r hr
    exact List.any_eq_true.mpr ⟨m, hm, by simp [hrm]⟩
  have hcounts : ((moment_distribution etl ml mo rows).map MomentEntry.count).sum
      = (err etl ml rows).length :=
    (moment_distribution_counts_sum etl ml mo rows hnd).trans hcover
  constructor
  · intro entry hentry
    rw [hform] at hentry
    obtain ⟨m, _, rfl⟩ := List.mem_map.mp hentry
    simp [htotal]
  · -- the percent of each bucket, before rounding
    have hcounts' : ((mo.filter fun m => 0 < momentCount (err etl ml rows) m).map
        fun m => momentCount (err etl ml rows) m).sum = (err etl ml rows).length := by
      have := hcounts
      rw [hform, List.map_map] at this
      exact this
    have hexact : ((mo.filter fun m => 0 < momentCount (err etl ml rows) m).map
        fun m => (momentCount (err etl ml rows) m : ℚ)
          / ((err etl ml rows).length : ℚ) * 100).sum = 100 := by
      have hrw : ((mo.filter fun m => 0 < momentCount (err etl ml rows) m).map
          fun m => (momentCount (err etl ml rows) m : ℚ)
            / ((err etl ml rows).length : ℚ) * 100)
          = ((mo.filter fun m => 0 < momentCount (err etl ml rows) m).map
            fun m => (momentCount (err etl ml rows) m : ℚ)
              * (100 / ((err etl ml rows).length : ℚ))) :=
        List.map_congr_left fun m _ => by ring
      rw [hrw, sum_map_mul_const]
      have hcast : ((mo.filter fun m => 0 < momentCount (err etl ml rows) m).map
          fun m => (momentCount (err etl ml rows) m : ℚ)).sum
          = (((mo.filter fun m => 0 < momentCount (err etl ml rows) m).map
            fun m => momentCount (err etl ml rows) m).sum : ℚ) := by
        rw [Nat.cast_list_sum, List.map_map]
        rfl
      rw [hcast, hcounts']
      rw [mul_comm, div_mul_cancel₀]
      exact ne_of_gt hTpos
    rw [hform, List.map_map, List.length_map]
    have hb := sum_map_round1_sub_le
      (fun m => (momentCount (err etl ml rows) m : ℚ)
        / ((err etl ml rows).length : ℚ) * 100)
      (mo.filter fun m => 0 < momentCount (err etl ml rows) m)
    rw [hexact] at hb
    have hlen' : (0 : ℚ)
        ≤ ((mo.filter fun m => 0 < momentCount (err etl ml rows) m).length : ℚ) := by
      positivity
    have hb' : |(((mo.filter fun m => 0 < momentCount (err etl ml rows) m).map
          (MomentEntry.percent ∘ fun m =>
            { moment := m
              count := momentCount (err etl ml rows) m
              percent := round1 ((momentCount (err etl ml rows) m : ℚ)
                / ((err etl ml rows).length : ℚ) * 100) })).sum) - 100|
        ≤ (1 / 20 : ℚ)
          * ((mo.filter fun m => 0 < momentCount (err etl ml rows) m).length : ℚ) := hb
    linarith

/-- Input for the `C6_distribution_amended` witness: three kept failures, all
with vocabulary moments. -/
def c6wrows : List Row :=
  [⟨"A", some 1, none, some "Matin"⟩, ⟨"A", some 1, none, some "Matin"⟩,
   ⟨"B", some 1, none, some "Soir"⟩]

/-- Concrete instance of `C6_distribution_amended`. -/
theorem C6_distribution_amended_witness :
    (∀ entry ∈ moment_distribution [] [] ["Matin", "Soir"] c6wrows,
      entry.percent
        = round1 ((entry.count : ℚ) / ((moment_total_errors [] [] c6wrows : ℚ)) * 100)) ∧
    |((moment_distribution [] [] ["Matin", "Soir"] c6wrows).map MomentEntry.percent).sum
        - 100|
      ≤ (1 / 10 : ℚ)
        * ((moment_distribution [] [] ["Matin", "Soir"] c6wrows).length : ℚ) :=
  C6_distribution_amended [] [] ["Matin", "Soir"] c6wrows (by decide) (by decide) (by decide)

/-- C9: every `moment_distribution` entry's moment belongs to the vocabulary
(a kept failure with a missing or non-vocabulary moment produces no entry),
yet `moment_total_errors` and the percent denominator count *all* kept
failures; the listed counts total exactly the kept failures with a
vocabulary moment, hence strictly less than `moment_total_errors` as soon as
one kept failure has no vocabulary moment. -/
theorem C9_unknown_moment_dropped (etl ml mo : List String) (rows : List Row)
    (hnd : mo.Nodup) :
    (∀ entry ∈ moment_distribution etl ml mo rows, entry.moment ∈ mo) ∧
    moment_total_errors etl ml rows = (err etl ml rows).length ∧
    ((moment_distribution etl ml mo rows).map MomentEntry.count).sum
      = (err etl ml rows).countP (fun r => mo.any fun m => r.moment == some m) ∧
    (∀ r ∈ err etl ml rows, (∀ m ∈ mo, r.moment ≠ some m) →
      ((moment_distribution etl ml mo rows).map MomentEntry.count).sum
        < (err etl ml rows).length) ∧
    (∀ entry ∈ moment_distribution etl ml mo rows,
      entry.percent
        = round1 ((entry.count : ℚ) / ((err etl ml rows).length : ℚ) * 100)) := by
  have hcounts := moment_distribution_counts_sum etl ml mo rows hnd
  refine ⟨?_, ?_, hcounts, ?_, ?_⟩
  · intro entry hentry
    by_cases he : (err etl ml rows).isEmpty
    · simp [moment_distribution, he] at hentry
    · simp only [moment_distribution, he, Bool.false_eq_true, if_false] at hentry
      obtain ⟨m, hm, rfl⟩ := List.mem_map.mp hentry
      exact (List.mem_filter.mp hm).1
  · by_cases he : (err etl ml rows).isEmpty
    · simp [moment_total_errors, he, List.isEmpty_iff.mp he]
    · simp [moment_total_errors, he]
  · intro r hr hno
    rw [hcounts]
    have hle : (err etl ml rows).countP (fun r => mo.any fun m => r.moment == some m)
        ≤ (err etl ml rows).length := List.countP_le_length _
    have hne : (err etl ml rows).countP (fun r => mo.any fun m => r.moment == some m)
        ≠ (err etl ml rows).length := by
      intro h
      have := List.countP_eq_length.mp h r hr
      obtain ⟨m, hm, hbeq⟩ := List.any_eq_true.mp this
      exact hno m hm (by simpa using hbeq)
    omega
  · intro entry hentry
    by_cases he : (err etl ml rows).isEmpty
    · simp [moment_distribution, he] at hentry
    · have hT : (err etl ml rows).length ≠ 0 := by
        simpa [List.length_eq_zero, List.isEmpty_iff] using he
      simp only [moment_distribution, he, Bool.false_eq_true, if_false] at hentry
      obtain ⟨m, _, rfl⟩ := List.mem_map.mp hentry
      simp [hT]

/-- Input for the `C9_unknown_moment_dropped` witness: two kept failures,
one with a non-vocabulary moment and one with no moment at all. -/
def c9rows : List Row :=
  [⟨"A", some 1, none, some "Nuit"⟩, ⟨"A", some 1, none, none⟩]

/-- Concrete instance of `C9_unknown_moment_dropped`: both kept failures are
dropped from the distribution while the denominator counts them, so the
listed counts sum to strictly less than `moment_total_errors`. -/
theorem C9_unknown_moment_dropped_witness :
    ((moment_distribution [] [] ["Matin"] c9rows).map MomentEntry.count).sum
      < (err [] [] c9rows).length :=
  (C9_unknown_moment_dropped [] [] ["Matin"] c9rows (by decide)).2.2.2.1
    ⟨"A", some 1, none, none⟩ (by decide) (by decide)

/-- Rewriting `List.contains` as a decidable membership test. -/
theorem contains_eq_decide_mem (L : List String) (a : String) :
    L.contains a = decide (a ∈ L) := List.elem_eq_mem a L

/-- C10: in every pivot row, the moment-column cells sum to at most the
row's `Total_NOK`, with equality exactly when every kept failure of that
site carries a (non-null) moment: the `(site, moment)` grouping drops kept
failures with a null moment, which still count in `Total_NOK`. The second
hypothesis excludes the degenerate case of a moment value literally equal
to the reserved column name `"Site"`. -/
theorem C10_pivot_row_sums (etl ml mo : List String) (rows : List Row)
    (hnd : mo.Nodup) (hS2 : "Site" ∉ pivotMoments (err etl ml rows)) :
    ∀ row ∈ recap_rows etl ml mo rows,
      ((row.cells.map Prod.snd).sum ≤ row.Total_NOK ∧
       (((row.cells.map Prod.snd).sum = row.Total_NOK) ↔
         ∀ r ∈ err etl ml rows, r.site = row.site → r.moment.isSome = true)) := by
  intro row hrow
  by_cases hie : (err etl ml rows).isEmpty
  · rw [recap_rows, if_pos hie] at hrow
    exact absurd hrow (List.not_mem_nil _)
  · rw [recap_rows, if_neg hie] at hrow
    obtain ⟨s, _, rfl⟩ := List.mem_map.mp ((List.mem_insertionSort totalNokDesc).mp hrow)
    have hsite_field : (recapRow etl ml mo rows s).site = s := rfl
    -- the row's Total_NOK is the number of kept failures of the site
    have hlen_nok : (recapRow etl ml mo rows s).Total_NOK
        = ((err etl ml rows).filter (fun r => r.site == s)).length := by
      show (rows.filter (fun r => r.site == s)).length
          - (rows.filter (fun r => r.site == s)).countP (is_ok_filtG etl ml) = _
      have hdis : ∀ a ∈ rows.filter (fun r => r.site == s),
          ¬((is_ok_filtG etl ml a) = true ∧ (!is_ok_filtG etl ml a) = true) :=
        fun a _ ⟨x, y⟩ => by simp [x] at y
      have h1a := countP_or_disjoint (is_ok_filtG etl ml)
        (fun r => !is_ok_filtG etl ml r) (rows.filter (fun r => r.site == s)) hdis
      have h1b : (rows.filter (fun r => r.site == s)).countP
          (fun a => is_ok_filtG etl ml a || !is_ok_filtG etl ml a)
          = (rows.filter (fun r => r.site == s)).length :=
        List.countP_eq_length.mpr fun a _ => by cases h : is_ok_filtG etl ml a <;> simp [h]
      have h1 : (rows.filter (fun r => r.site == s)).length
          = (rows.filter (fun r => r.site == s)).countP (is_ok_filtG etl ml)
            + (rows.filter (fun r => r.site == s)).countP
                (fun r => !is_ok_filtG etl ml r) := by
        rw [← h1b]
        exact h1a
      have h2 : ((err etl ml rows).filter (fun r => r.site == s)).length
          = (rows.filter (fun r => r.site == s)).countP
              (fun r => !is_ok_filtG etl ml r) := by
        rw [← List.countP_eq_length_filter, err, List.countP_filter, List.countP_filter]
        exact countP_congr_mem _ _ rows fun a _ => Bool.and_comm _ _
      rw [h2]
      omega
    -- each pivot cell counts the site's kept failures with that moment
    have hcell : ∀ m, pivotCell (err etl ml rows) s m
        = ((err etl ml rows).filter (fun r => r.site == s)).countP
            (fun r => r.moment == some m) := by
      intro m
      rw [pivotCell, ← List.countP_eq_length_filter, List.countP_filter]
      exact countP_congr_mem _ _ _ fun a _ => Bool.and_comm _ _
    -- the column list has no duplicates
    have hpivnd : (pivotMoments (err etl ml rows)).Nodup :=
      ((List.perm_insertionSort strLeRel _).nodup_iff).mpr (List.nodup_dedup _)
    have hcolsnd : (moment_cols mo (err etl ml rows)).Nodup := by
      rw [moment_cols]
      refine List.Nodup.append (hnd.filter _) ?_ ?_
      · refine List.Nodup.filter _ ?_
        rw [err_grouped_columns]
        exact List.nodup_cons.mpr ⟨hS2, hpivnd⟩
      · intro a ha hb
        have hpb := (List.mem_filter.mp hb).2
        rw [contains_eq_decide_mem] at hpb
        simp only [Bool.not_eq_true', decide_eq_false_iff_not, List.mem_append,
          List.mem_singleton] at hpb
        exact hpb (Or.inl ha)
    -- every moment of a kept failure occurs among the columns
    have hsub : ∀ m ∈ pivotMoments (err etl ml rows),
        m ∈ moment_cols mo (err etl ml rows) := by
      intro m hm
      rw [moment_cols]
      by_cases hf : m ∈ mo.filter
          (fun x => (err_grouped_columns (err etl ml rows)).contains x)
      · exact List.mem_append_left _ hf
      · refine List.mem_append_right _ ?_
        refine List.mem_filter.mpr ⟨List.mem_cons_of_mem _ hm, ?_⟩
        have hmS : m ≠ "Site" := fun h => hS2 (h ▸ hm)
        have hmo : m ∉ mo := by
          intro hmo
          refine hf (List.mem_filter.mpr ⟨hmo, ?_⟩)
          rw [contains_eq_decide_mem]
          simp [err_grouped_columns, List.mem_cons, hm]
        rw [contains_eq_decide_mem]
        simp [List.mem_filter, hmo, hmS]
    -- column membership of a moment agrees with the moment being present
    have hpred : ∀ r ∈ (err etl ml rows).filter (fun r => r.site == s),
        ((moment_cols mo (err etl ml rows)).any fun m => r.moment == some m)
          = r.moment.isSome := by
      intro r hr
      have hre : r ∈ err etl ml rows := (List.mem_filter.mp hr).1
      cases hmom : r.moment with
      | none => simp
      | some m =>
        have hmpiv : m ∈ pivotMoments (err etl ml rows) := by
          rw [pivotMoments]
          refine (List.mem_insertionSort strLeRel).mpr
            (List.mem_dedup.mpr (List.mem_filterMap.mpr ⟨r, hre, ?_⟩))
          rw [hmom]
        simp only [Option.isSome_some]
        refine List.any_eq_true.mpr ⟨m, hsub m hmpiv, ?_⟩
        simp
    -- the sum of the cells
    have hmaster := sum_countP_keys Row.moment (moment_cols mo (err etl ml rows))
      hcolsnd ((err etl ml rows).filter (fun r => r.site == s))
    have hsum : (((recapRow etl ml mo rows s).cells.map Prod.snd)).sum
        = ((err etl ml rows).filter (fun r => r.site == s)).countP
            (fun r => (moment_cols mo (err etl ml rows)).any
              fun m => r.moment == some m) := by
      show ((((moment_cols mo (err etl ml rows)).map
        fun m => (m, pivotCell (err etl ml rows) s m)).map Prod.snd)).sum = _
      rw [List.map_map]
      calc (((moment_cols mo (err etl ml rows)).map
            (Prod.snd ∘ fun m => (m, pivotCell (err etl ml rows) s m)))).sum
          = (((moment_cols mo (err etl ml rows)).map
              fun m => ((err etl ml rows).filter (fun r => r.site == s)).countP
                (fun r => r.moment == some m))).sum :=
            congrArg List.sum (List.map_congr_left fun m _ => hcell m)
        _ = _ := hmaster
    constructor
    · rw [hsum, hlen_nok]
      exact List.countP_le_length _
    · rw [hsum, hlen_nok, hsite_field, List.countP_eq_length]
      constructor
      · intro h r hre hrs
        have hr' : r ∈ (err etl ml rows).filter (fun r => r.site == s) :=
          List.mem_filter.mpr ⟨hre, by simp [hrs]⟩
        have := h r hr'
        rwa [hpred r hr'] at this
      · intro h r hr
        rw [hpred r hr]
        exact h r (List.mem_filter.mp hr).1
          (by simpa using (List.mem_filter.mp hr).2)

/-- Input for the `C10_pivot_row_sums` witness: site `A` has two kept
failures, one with a vocabulary moment and one with a null moment. -/
def c10rows : List Row :=
  [⟨"A", some 1, none, some "Matin"⟩, ⟨"A", some 1, none, none⟩]

/-- Concrete instance of `C10_pivot_row_sums` on site `A` of `c10rows`. -/
theorem C10_pivot_row_sums_witness :
    (((recapRow [] [] ["Matin"] c10rows "A").cells.map Prod.snd).sum
      ≤ (recapRow [] [] ["Matin"] c10rows "A").Total_NOK) ∧
    ((((recapRow [] [] ["Matin"] c10rows "A").cells.map Prod.snd).sum
        = (recapRow [] [] ["Matin"] c10rows "A").Total_NOK) ↔
      ∀ r ∈ err [] [] c10rows,
        r.site = (recapRow [] [] ["Matin"] c10rows "A").site →
          r.moment.isSome = true) :=
  C10_pivot_row_sums [] [] ["Matin"] c10rows (by decide) (by decide)
    (recapRow [] [] ["Matin"] c10rows "A") (List.mem_cons_self _ _)

end Sessions
